import Mathlib

/-!
Verification development for the statistical seed-extraction and
network-scoring pipeline of the test suite (files
src/testsuite/utils.py and src/testsuite/unittests.py).

Python values that flow through the graph code are dynamically typed:
graph node labels are integers (after relabeling to a dense index
range) while gene identifiers are strings.  The type PyVal models that
dynamic universe, so that the source code's comparisons between gene
identifiers and node labels are expressible exactly as Python performs
them.  Fallible Python code (raised exceptions) is modelled with
Except String, carrying the exception name.
-/

inductive PyVal where
  | int : Int → PyVal
  | str : String → PyVal
deriving DecidableEq, Repr

/-- Model of a networkx undirected graph as used by utils.py: a node
list, an edge list, and the per-node GeneID attribute dictionary (an
association list, as returned by nx.get_node_attributes). -/
structure PyGraph where
  nodes : List PyVal
  edges : List (PyVal × PyVal)
  geneID : List (PyVal × PyVal)
deriving DecidableEq, Repr

/-- Python dictionary indexing d[k]: the value at the first matching
key, or a KeyError. -/
def dictGet (d : List (PyVal × PyVal)) (k : PyVal) : Except String PyVal :=
  match d.find? (fun kv => decide (kv.1 = k)) with
  | some kv => Except.ok kv.2
  | none => Except.error "KeyError"

/-- Enum AlgorithmSelector of utils.py: the six network enrichment
algorithm variants. -/
inductive AlgorithmSelector where
  | DIAMOND | GXNA | CLUSTEX2 | HOTNET | PINNACLEZ | GIGA
deriving DecidableEq, Repr

/-- The wrapper objects returned by get_algorithm_wrapper, one per
wrapper class imported by utils.py. -/
inductive AlgorithmWrapper where
  | gxnaWrapper | clustEx2Wrapper | diamondWrapper
  | hierarchicalHotNetWrapper | pinnacleZWrapper | gigaWrapper
deriving DecidableEq, Repr

/-- Model of utils.get_algorithm_wrapper (utils.py lines 147 to 166):
an if/elif chain over the enum; a Python function that falls through
every branch returns None, modelled as Option.none. -/
def get_algorithm_wrapper (algorithm_selector : AlgorithmSelector) : Option AlgorithmWrapper :=
  if algorithm_selector = AlgorithmSelector.GXNA then some AlgorithmWrapper.gxnaWrapper
  else if algorithm_selector = AlgorithmSelector.CLUSTEX2 then some AlgorithmWrapper.clustEx2Wrapper
  else if algorithm_selector = AlgorithmSelector.DIAMOND then some AlgorithmWrapper.diamondWrapper
  else if algorithm_selector = AlgorithmSelector.HOTNET then some AlgorithmWrapper.hierarchicalHotNetWrapper
  else if algorithm_selector = AlgorithmSelector.PINNACLEZ then some AlgorithmWrapper.pinnacleZWrapper
  else if algorithm_selector = AlgorithmSelector.GIGA then some AlgorithmWrapper.gigaWrapper
  else none

/-- Enum NetworkGeneratorSelector of utils.py. -/
inductive NetworkGeneratorSelector where
  | ORIGINAL | REWIRED | SHUFFLED | SCALE_FREE | UNIFORM
deriving DecidableEq, Repr

/-- Model of the network-selection step of unittests.load_data
(unittests.py lines 39 to 42): the loaded ggi_network is replaced by
generators.generate_network only when the generator selector differs
from ORIGINAL.  The external generate_network (module
testsuite.network_generators, outside the core) is a parameter. -/
def load_data_network (network_generator_selector : NetworkGeneratorSelector)
    (ggi_network : PyGraph)
    (generate_network : PyGraph → NetworkGeneratorSelector → PyGraph) : PyGraph :=
  if network_generator_selector ≠ NetworkGeneratorSelector.ORIGINAL then
    generate_network ggi_network network_generator_selector
  else
    ggi_network

/-- The comprehension of utils.extract_seed_genes (utils.py line 207)
parametric in the threshold variable computed on line 206: the genes
of the score map whose p-value is strictly below the threshold, in map
order. -/
def seedsBelow (threshold : Rat) (gene_p_values : List (String × Rat)) : List String :=
  (gene_p_values.filter (fun gp => decide (gp.2 < threshold))).map Prod.fst

/-- Model of utils.extract_seed_genes (utils.py lines 193 to 207): the
threshold is 0.001 divided by the number of entries of the score map
(a ZeroDivisionError when the map is empty), and the genes scoring
strictly below it are returned. -/
def extract_seed_genes (gene_p_values : List (String × Rat)) : Except String (List String) :=
  if gene_p_values.length = 0 then Except.error "ZeroDivisionError"
  else Except.ok (seedsBelow ((1 : Rat) / 1000 / (gene_p_values.length : Rat)) gene_p_values)

/-- The boolean-mask selection of utils.compute_gene_p_values (utils.py
lines 186 to 187): the values of one gene column at the samples whose
phenotype equals the given label. -/
def maskValues (vals : List Rat) (phenotypes : List Nat) (label : Nat) : List Rat :=
  ((vals.zip phenotypes).filter (fun vp => decide (vp.2 = label))).map Prod.fst

/-- Models scipy.stats.mannwhitneyu as called on line 189 of utils.py:
scipy raises ValueError when either sample is empty (x and y must be
of nonzero size); the numeric p-value on non-degenerate samples is an
external statistic, abstracted by the parameter pfun. -/
def mannwhitneyu (pfun : List Rat → List Rat → Rat) (x y : List Rat) : Except String Rat :=
  if x.isEmpty || y.isEmpty then Except.error "ValueError"
  else Except.ok (pfun x y)

/-- The dictionary comprehension of utils.compute_gene_p_values (line
189), evaluated column by column; an exception raised by the rank test
aborts the whole comprehension. -/
def mapPValues (pfun : List Rat → List Rat → Rat) (phenotypes : List Nat) :
    List (String × List Rat) → Except String (List (String × Rat))
  | [] => Except.ok []
  | (gene, vals) :: rest => do
    let p ← mannwhitneyu pfun (maskValues vals phenotypes 1) (maskValues vals phenotypes 0)
    let tail ← mapPValues pfun phenotypes rest
    pure ((gene, p) :: tail)

/-- Model of utils.compute_gene_p_values (utils.py lines 170 to 189):
the expression matrix is given column-wise (gene, sample values), the
phenotype vector is aligned with the sample axis, and each gene column
is split into cases (label 1) and controls (label 0) and handed to the
Mann-Whitney U test. -/
def compute_gene_p_values (pfun : List Rat → List Rat → Rat)
    (expression_data : List (String × List Rat)) (phenotypes : List Nat) :
    Except String (List (String × Rat)) :=
  mapPValues pfun phenotypes expression_data

/-- Undirected adjacency on the edge list. -/
def hasEdge (g : PyGraph) (a b : PyVal) : Bool :=
  g.edges.any (fun e => decide ((e.1 = a ∧ e.2 = b) ∨ (e.1 = b ∧ e.2 = a)))

/-- The neighbours of a node, read off the node and edge lists. -/
def neighbors (g : PyGraph) (v : PyVal) : List PyVal :=
  g.nodes.filter (fun u => hasEdge g v u)

/-- One breadth step of reachability: a node set together with all of
its neighbours, deduplicated. -/
def stepReach (g : PyGraph) (s : List PyVal) : List PyVal :=
  (s ++ s.flatMap (neighbors g)).dedup

/-- All nodes reachable from v: iterating the breadth step as many
times as the graph has nodes closes the reachable set. -/
def reach (g : PyGraph) (v : PyVal) : List PyVal :=
  (stepReach g)^[g.nodes.length] [v]

/-- Connected components of the not-yet-visited node list: peel off the
reachable set of the first remaining node; the fuel bounds the number
of components and never runs out when it starts at the list length. -/
def componentsAux (g : PyGraph) : Nat → List PyVal → List (List PyVal)
  | _, [] => []
  | 0, _ :: _ => []
  | fuel + 1, v :: rest =>
    reach g v :: componentsAux g fuel (rest.filter (fun u => decide (u ∉ reach g v)))

/-- Models nx.connected_components: the connected components of the
graph, each given as its list of nodes. -/
def connected_components (g : PyGraph) : List (List PyVal) :=
  componentsAux g g.nodes.length g.nodes

/-- Models the Graph.subgraph method: the subgraph induced by a node
list (nodes outside the graph are ignored); node attributes carry
over. -/
def subgraph (g : PyGraph) (ns : List PyVal) : PyGraph :=
  { nodes := g.nodes.filter (fun v => decide (v ∈ ns)),
    edges := g.edges.filter (fun e => decide (e.1 ∈ ns) && decide (e.2 ∈ ns)),
    geneID := g.geneID }

/-- An effectful filter in the Except monad, evaluated left to right,
matching a Python list comprehension whose condition may raise. -/
def filterExcept (p : PyVal → Except String Bool) : List PyVal → Except String (List PyVal)
  | [] => Except.ok []
  | x :: xs => do
    let b ← p x
    let rest ← filterExcept p xs
    pure (if b then x :: rest else rest)

/-- The seed-node comprehension of utils.compute_seed_statistics
(utils.py line 246): the network nodes whose GeneID attribute occurs
in the seed gene list; a node missing from the attribute dictionary
raises KeyError. -/
def seedNodes (g : PyGraph) (seed_genes : List PyVal) : Except String (List PyVal) :=
  filterExcept (fun node => do
    let gid ← dictGet g.geneID node
    pure (decide (gid ∈ seed_genes))) g.nodes

/-- Models np.max on a Python list: the maximum of a nonempty list, a
ValueError on the empty list. -/
def npMax : List Nat → Except String Nat
  | [] => Except.error "ValueError"
  | x :: xs => Except.ok (xs.foldl Nat.max x)

/-- The LCC-ratio computation of utils.compute_seed_statistics
(utils.py lines 245 to 248): the size of the largest connected
component of the subgraph induced by the seed nodes, divided by the
number of nodes of that subgraph. -/
def lccRatio (g : PyGraph) (seed_genes : List PyVal) : Except String Rat := do
  let sn ← seedNodes g seed_genes
  let sub := subgraph g sn
  let maxSize ← npMax ((connected_components sub).map List.length)
  pure ((maxSize : Rat) / ((sub.nodes.length : Nat) : Rat))

/-- Models nx.shortest_path_length on an unweighted graph: NodeNotFound
when source or target is not a node of the graph, otherwise the least
number of breadth steps after which the target is reached from the
source, and NetworkXNoPath when the two are not connected. -/
def shortest_path_length (g : PyGraph) (source target : PyVal) : Except String Nat :=
  if source ∈ g.nodes ∧ target ∈ g.nodes then
    match (List.range (g.nodes.length + 1)).find?
        (fun k => decide (target ∈ (stepReach g)^[k] [source])) with
    | some k => Except.ok k
    | none => Except.error "NetworkXNoPath"
  else Except.error "NodeNotFound"

/-- Models itertools.combinations(xs, 2): the unordered pairs of list
entries, in lexicographic position order. -/
def combinations2 {α : Type} : List α → List (α × α)
  | [] => []
  | x :: xs => (xs.map (fun y => (x, y))) ++ combinations2 xs

/-- The accumulation loop of utils.compute_seed_statistics (utils.py
lines 251 to 253): sum of the pairwise shortest-path distances and the
number of pairs, with the first raised exception aborting the loop. -/
def sumDistances (g : PyGraph) : List (PyVal × PyVal) → Rat → Nat → Except String (Rat × Nat)
  | [], s, c => Except.ok (s, c)
  | p :: ps, s, c => do
    let d ← shortest_path_length g p.1 p.2
    sumDistances g ps (s + (d : Rat)) (c + 1)

/-- The mean-shortest-distance computation of
utils.compute_seed_statistics (utils.py lines 249 to 254): the source
iterates over pairs of seed GENES (not of the mapped seed nodes) and
queries shortest paths in the full network; dividing by a zero pair
count raises ZeroDivisionError. -/
def meanShortestDistance (g : PyGraph) (seed_genes : List PyVal) : Except String Rat := do
  let sc ← sumDistances g (combinations2 seed_genes) 0 0
  if sc.2 = 0 then Except.error "ZeroDivisionError"
  else pure (sc.1 / ((sc.2 : Nat) : Rat))

/-- Model of utils.compute_seed_statistics (utils.py lines 228 to 255):
the LCC ratio of the seed-induced subgraph (lines 245 to 248) followed
by the mean pairwise shortest distance (lines 249 to 254), with
exceptions propagating in source order. -/
def compute_seed_statistics (g : PyGraph) (seed_genes : List PyVal) :
    Except String (Rat × Rat) := do
  let lcc_ratio ← lccRatio g seed_genes
  let mean_shortest_distance ← meanShortestDistance g seed_genes
  pure (lcc_ratio, mean_shortest_distance)

/-- A triangle network in the shape produced by utils.load_ggi_network:
integer node labels 0, 1, 2 (dense index space) carrying string GeneID
attributes. -/
def triGraph : PyGraph :=
  { nodes := [PyVal.int 0, PyVal.int 1, PyVal.int 2],
    edges := [(PyVal.int 0, PyVal.int 1), (PyVal.int 0, PyVal.int 2),
              (PyVal.int 1, PyVal.int 2)],
    geneID := [(PyVal.int 0, PyVal.str "A"), (PyVal.int 1, PyVal.str "B"),
               (PyVal.int 2, PyVal.str "C")] }

/-- A triangle network whose node labels coincide with their GeneID
attributes; on it the shortest-path loop of compute_seed_statistics
can run to completion. -/
def strTriGraph : PyGraph :=
  { nodes := [PyVal.str "A", PyVal.str "B", PyVal.str "C"],
    edges := [(PyVal.str "A", PyVal.str "B"), (PyVal.str "A", PyVal.str "C"),
              (PyVal.str "B", PyVal.str "C")],
    geneID := [(PyVal.str "A", PyVal.str "A"), (PyVal.str "B", PyVal.str "B"),
               (PyVal.str "C", PyVal.str "C")] }

/-- The pair compute_seed_statistics returns on the string triangle
with all three genes as seeds (it evaluates to the pair of LCC ratio 1
and mean shortest distance 1). -/
def cssTriValue : Rat × Rat :=
  ((compute_seed_statistics strTriGraph
      [PyVal.str "A", PyVal.str "B", PyVal.str "C"]).toOption).getD (0, 0)

theorem combinations2_of_short {α : Type} (l : List α) (h : l.length ≤ 1) :
    combinations2 l = [] :=
  match l with
  | [] => rfl
  | [_] => rfl
  | _ :: _ :: _ => by simp at h

theorem meanShortestDistance_degenerate (g : PyGraph) (seed_genes : List PyVal)
    (h : seed_genes.length ≤ 1) :
    meanShortestDistance g seed_genes = Except.error "ZeroDivisionError" := by
  unfold meanShortestDistance
  rw [combinations2_of_short seed_genes h]
  rfl

/-- Claim C7: every member of the algorithm selector enum is wired to a
wrapper in the if/elif chain of get_algorithm_wrapper, so no selector
can reach the silent fall-through that would return None: wrapper
resolution never produces a null wrapper. -/
theorem get_algorithm_wrapper_never_none :
    ∀ s : AlgorithmSelector, ∃ w, get_algorithm_wrapper s = some w := by
  intro s
  cases s <;> exact ⟨_, rfl⟩

/-- Claim C9: running load_data with the ORIGINAL network-generation
strategy hands the originally loaded graph to the rest of the pipeline
unchanged, whatever the external network generator would do. -/
theorem load_data_original_identity :
    ∀ (ggi_network : PyGraph)
      (generate_network : PyGraph → NetworkGeneratorSelector → PyGraph),
      load_data_network NetworkGeneratorSelector.ORIGINAL ggi_network generate_network =
        ggi_network := by
  intro g gen
  rfl

/-- Claim C10: on the empty gene score map, extract_seed_genes raises
ZeroDivisionError while computing 0.001 divided by the map size,
instead of returning an empty seed list. -/
theorem extract_seed_genes_empty_div_zero :
    extract_seed_genes [] = Except.error "ZeroDivisionError" := rfl

/-- Claim C2, behaviour of the code at a concrete input: on a triangle
network with integer node labels 0, 1, 2 carrying GeneID attributes
A, B, C, and the seed set of all three genes, compute_seed_statistics
raises NodeNotFound instead of returning the mean pairwise distance
1.0, because the shortest-path loop passes the gene identifiers rather
than the mapped seed nodes to nx.shortest_path_length. -/
theorem compute_seed_statistics_gene_id_crash :
    compute_seed_statistics triGraph [PyVal.str "A", PyVal.str "B", PyVal.str "C"] =
      Except.error "NodeNotFound" := rfl

/-- Claim C6, behaviour of the code at a concrete input: with a seed
set containing a gene Z absent from the GeneID attributes of the
triangle network, compute_seed_statistics drops Z from the induced
subgraph but then raises NodeNotFound in the shortest-path loop, so
the call does not complete normally. -/
theorem compute_seed_statistics_absent_seed_crash :
    compute_seed_statistics triGraph [PyVal.str "A", PyVal.str "B", PyVal.str "Z"] =
      Except.error "NodeNotFound" := rfl

/-- Claim C4, behaviour of the code at a concrete input: when the case
group is empty (every phenotype label is 0), the rank test raises
ValueError and compute_gene_p_values propagates the exception, so the
whole call crashes instead of recording a sentinel undefined score for
the degenerate gene; this holds whatever p-value the test would return
on non-degenerate input. -/
theorem compute_gene_p_values_degenerate_crash :
    ∀ pfun : List Rat → List Rat → Rat,
      compute_gene_p_values pfun [("G1", [5, 5, 5, 5])] [0, 0, 0, 0] =
        Except.error "ValueError" :=
  fun _ => rfl

/-- Claim C5: with zero or one seed gene, compute_seed_statistics never
returns a value: it signals the degenerate seed set with an exception
(a ValueError from the empty component list or a ZeroDivisionError
from the empty pair count). -/
theorem compute_seed_statistics_degenerate_undefined (g : PyGraph)
    (seed_genes : List PyVal) (h : seed_genes.length ≤ 1) (r : Rat × Rat) :
    compute_seed_statistics g seed_genes ≠ Except.ok r := by
  intro hok
  unfold compute_seed_statistics at hok
  rw [meanShortestDistance_degenerate g seed_genes h] at hok
  cases hl : lccRatio g seed_genes <;> rw [hl] at hok <;>
    simp [Bind.bind, Except.bind] at hok

/-- Witness for claim C5: the degenerate-seed theorem applied to the
triangle network and the empty seed list. -/
theorem compute_seed_statistics_degenerate_witness :
    compute_seed_statistics triGraph [] ≠ Except.ok (0, 0) :=
  compute_seed_statistics_degenerate_undefined triGraph [] (by decide) (0, 0)

/-- Claim C1: on a non-empty gene score map, extract_seed_genes
returns exactly the genes whose p-value is strictly below the
Bonferroni-corrected threshold 0.001 divided by the map size. -/
theorem extract_seed_genes_spec (gene_p_values : List (String × Rat))
    (h : gene_p_values ≠ []) :
    ∃ seeds, extract_seed_genes gene_p_values = Except.ok seeds ∧
      ∀ gene : String, gene ∈ seeds ↔
        ∃ p, (gene, p) ∈ gene_p_values ∧
          p < 1 / 1000 / (gene_p_values.length : Rat) := by
  have hlen : ¬ gene_p_values.length = 0 := by
    simp [List.length_eq_zero, h]
  unfold extract_seed_genes
  rw [if_neg hlen]
  refine ⟨_, rfl, ?_⟩
  intro gene
  simp only [seedsBelow, List.mem_map, List.mem_filter, decide_eq_true_eq]
  constructor
  · rintro ⟨⟨a, p⟩, ⟨hm, hlt⟩, rfl⟩
    exact ⟨p, hm, hlt⟩
  · rintro ⟨p, hm, hlt⟩
    exact ⟨(gene, p), ⟨hm, hlt⟩, rfl⟩

/-- Witness for claim C1: the extraction theorem applied to a concrete
two-gene score map. -/
theorem extract_seed_genes_spec_witness :
    ∃ seeds,
      extract_seed_genes [("G1", 1 / 10000), ("G2", 1 / 2)] = Except.ok seeds ∧
      ∀ gene : String, gene ∈ seeds ↔
        ∃ p, (gene, p) ∈ [("G1", (1 : Rat) / 10000), ("G2", 1 / 2)] ∧
          p < 1 / 1000 /
            (([("G1", (1 : Rat) / 10000), ("G2", 1 / 2)] : List (String × Rat)).length : Rat) :=
  extract_seed_genes_spec [("G1", 1 / 10000), ("G2", 1 / 2)] (by simp)

theorem length_filter_mono {α : Type} (l : List α) (p q : α → Bool)
    (h : ∀ a, p a = true → q a = true) :
    (l.filter p).length ≤ (l.filter q).length :=
  (List.monotone_filter_right l h).length_le

/-- Claim C8: the selection comprehension of extract_seed_genes is
monotone in its threshold: with a smaller threshold every selected
gene is still selected at the larger threshold, and the seed list
never gets longer. -/
theorem seedsBelow_monotone (gene_p_values : List (String × Rat)) (t1 t2 : Rat)
    (h : t1 ≤ t2) :
    (∀ gene, gene ∈ seedsBelow t1 gene_p_values → gene ∈ seedsBelow t2 gene_p_values) ∧
      (seedsBelow t1 gene_p_values).length ≤ (seedsBelow t2 gene_p_values).length := by
  constructor
  · intro gene hg
    simp only [seedsBelow, List.mem_map, List.mem_filter, decide_eq_true_eq] at hg ⊢
    obtain ⟨gp, ⟨hm, hlt⟩, hfst⟩ := hg
    exact ⟨gp, ⟨hm, lt_of_lt_of_le hlt h⟩, hfst⟩
  · unfold seedsBelow
    rw [List.length_map, List.length_map]
    exact length_filter_mono gene_p_values _ _ (by
      intro gp hp
      simp only [decide_eq_true_eq] at hp ⊢
      exact lt_of_lt_of_le hp h)

/-- Witness for claim C8: the monotonicity theorem applied to a
concrete map and the thresholds 1/2000 and 1/1000. -/
theorem seedsBelow_monotone_witness :
    (∀ gene, gene ∈ seedsBelow (1 / 2000) [("G1", (1 : Rat) / 1500)] →
      gene ∈ seedsBelow (1 / 1000) [("G1", (1 : Rat) / 1500)]) ∧
      (seedsBelow (1 / 2000) [("G1", (1 : Rat) / 1500)]).length ≤
        (seedsBelow (1 / 1000) [("G1", (1 : Rat) / 1500)]).length :=
  seedsBelow_monotone [("G1", (1 : Rat) / 1500)] (1 / 2000) (1 / 1000) (by norm_num)

theorem subset_stepReach (g : PyGraph) (s : List PyVal) : s ⊆ stepReach g s := by
  intro x hx
  unfold stepReach
  exact List.subset_dedup _ (List.mem_append_left _ hx)

theorem stepReach_subset (g : PyGraph) (s : List PyVal) (hs : s ⊆ g.nodes) :
    stepReach g s ⊆ g.nodes := by
  intro x hx
  unfold stepReach at hx
  rcases List.mem_append.mp (List.dedup_subset _ hx) with h | h
  · exact hs h
  · rcases List.mem_flatMap.mp h with ⟨v, hv, hn⟩
    unfold neighbors at hn
    exact List.mem_of_mem_filter hn

theorem mem_reach_self (g : PyGraph) (v : PyVal) : v ∈ reach g v := by
  unfold reach
  generalize g.nodes.length = n
  induction n with
  | zero => simp
  | succ k ih =>
    rw [Function.iterate_succ_apply']
    exact subset_stepReach g _ ih

theorem reach_subset (g : PyGraph) (v : PyVal) (hv : v ∈ g.nodes) :
    reach g v ⊆ g.nodes := by
  unfold reach
  generalize g.nodes.length = n
  induction n with
  | zero =>
    intro x hx
    simp at hx
    subst hx
    exact hv
  | succ k ih =>
    rw [Function.iterate_succ_apply']
    exact stepReach_subset g _ ih

theorem reach_nodup (g : PyGraph) (v : PyVal) (hv : v ∈ g.nodes) :
    (reach g v).Nodup := by
  unfold reach
  match hn : g.nodes.length with
  | 0 =>
    exact absurd (List.length_eq_zero.mp hn ▸ hv) (List.not_mem_nil v)
  | k + 1 =>
    rw [Function.iterate_succ_apply']
    unfold stepReach
    exact List.nodup_dedup _

theorem componentsAux_subset_nodup (g : PyGraph) :
    ∀ (fuel : Nat) (l : List PyVal), l ⊆ g.nodes →
      ∀ c ∈ componentsAux g fuel l, c ⊆ g.nodes ∧ c.Nodup := by
  intro fuel
  induction fuel with
  | zero =>
    intro l hl c hc
    cases l with
    | nil => simp [componentsAux] at hc
    | cons v rest => simp [componentsAux] at hc
  | succ k ih =>
    intro l hl c hc
    cases l with
    | nil => simp [componentsAux] at hc
    | cons v rest =>
      have hv : v ∈ g.nodes := hl (List.mem_cons_self v rest)
      rw [componentsAux] at hc
      rcases List.mem_cons.mp hc with rfl | hmem
      · exact ⟨reach_subset g v hv, reach_nodup g v hv⟩
      · exact ih _ (fun x hx => hl (List.mem_cons_of_mem _ (List.mem_of_mem_filter hx)))
          c hmem

theorem componentsAux_eq_nil (g : PyGraph) (fuel : Nat) (l : List PyVal)
    (hf : l.length ≤ fuel) (h : componentsAux g fuel l = []) : l = [] := by
  cases l with
  | nil => rfl
  | cons v rest =>
    cases fuel with
    | zero => simp at hf
    | succ k => simp [componentsAux] at h

theorem componentsAux_singleton (g : PyGraph) (fuel : Nat) (l : List PyVal)
    (c : List PyVal) (hf : l.length ≤ fuel)
    (h : componentsAux g fuel l = [c]) :
    (∀ u ∈ l, u ∈ c) ∧ ∃ v rest, l = v :: rest ∧ c = reach g v := by
  cases l with
  | nil => simp [componentsAux] at h
  | cons v rest =>
    cases fuel with
    | zero => simp at hf
    | succ k =>
      rw [componentsAux] at h
      injection h with h1 h2
      have hrest : rest.length ≤ k := Nat.le_of_succ_le_succ (by simpa using hf)
      have hfil : rest.filter (fun u => decide (u ∉ reach g v)) = [] :=
        componentsAux_eq_nil g k _
          (le_trans (List.length_filter_le _ _) hrest) h2
      have hcov : ∀ u ∈ rest, u ∈ reach g v := by
        intro u hu
        have := List.filter_eq_nil_iff.mp hfil u hu
        simpa using this
      refine ⟨?_, v, rest, rfl, h1.symm⟩
      intro u hu
      rcases List.mem_cons.mp hu with rfl | hu
      · exact h1 ▸ mem_reach_self g u
      · exact h1 ▸ hcov u hu

theorem foldl_max_le (b : Nat) :
    ∀ (xs : List Nat) (x : Nat), x ≤ b → (∀ a ∈ xs, a ≤ b) →
      xs.foldl Nat.max x ≤ b := by
  intro xs
  induction xs with
  | nil =>
    intro x hx _
    simpa using hx
  | cons y ys ih =>
    intro x hx hall
    simp only [List.foldl_cons]
    exact ih (Nat.max x y)
      (Nat.max_le.mpr ⟨hx, hall y (List.mem_cons_self y ys)⟩)
      (fun a ha => hall a (List.mem_cons_of_mem _ ha))

theorem npMax_le (l : List Nat) (m b : Nat) (hok : npMax l = Except.ok m)
    (hb : ∀ a ∈ l, a ≤ b) : m ≤ b := by
  cases l with
  | nil => simp [npMax] at hok
  | cons x xs =>
    simp only [npMax, Except.ok.injEq] at hok
    subst hok
    exact foldl_max_le b xs x (hb x (List.mem_cons_self x xs))
      (fun a ha => hb a (List.mem_cons_of_mem _ ha))

/-- Claim C3: whenever compute_seed_statistics returns a pair on a
network with duplicate-free nodes, the LCC-ratio component of the
result lies in the closed interval [0, 1]; and when the subgraph
induced by the mapped seed nodes is connected (a single connected
component, as it is in particular when fully connected), the ratio is
exactly 1. -/
theorem compute_seed_statistics_lcc_ratio (g : PyGraph) (seed_genes : List PyVal)
    (hnodup : g.nodes.Nodup) (l m : Rat) (sn : List PyVal)
    (hsn : seedNodes g seed_genes = Except.ok sn)
    (hsub : (subgraph g sn).nodes ≠ [])
    (hok : compute_seed_statistics g seed_genes = Except.ok (l, m)) :
    (0 ≤ l ∧ l ≤ 1) ∧
      ((connected_components (subgraph g sn)).length = 1 → l = 1) := by
  have hlcc : lccRatio g seed_genes = Except.ok l := by
    unfold compute_seed_statistics at hok
    cases h1 : lccRatio g seed_genes with
    | error e =>
      rw [h1] at hok
      simp [Bind.bind, Except.bind] at hok
    | ok lv =>
      rw [h1] at hok
      cases h2 : meanShortestDistance g seed_genes with
      | error e =>
        rw [h2] at hok
        simp [Bind.bind, Except.bind] at hok
      | ok mv =>
        rw [h2] at hok
        simp only [Bind.bind, Except.bind, pure, Except.pure, Except.ok.injEq,
          Prod.mk.injEq] at hok
        rw [hok.1]
  have hdiv : ((connected_components (subgraph g sn)).map List.length ≠ []) ∧
      ∃ mx, npMax ((connected_components (subgraph g sn)).map List.length) =
          Except.ok mx ∧
        l = (mx : Rat) / (((subgraph g sn).nodes.length : Nat) : Rat) := by
    unfold lccRatio at hlcc
    rw [hsn] at hlcc
    simp only [Bind.bind, Except.bind] at hlcc
    cases hmx : npMax ((connected_components (subgraph g sn)).map List.length) with
    | error e =>
      rw [hmx] at hlcc
      simp at hlcc
    | ok mx =>
      rw [hmx] at hlcc
      simp only [pure, Except.pure, Except.ok.injEq] at hlcc
      refine ⟨?_, mx, rfl, hlcc.symm⟩
      intro hnil
      rw [hnil] at hmx
      simp [npMax] at hmx
  obtain ⟨hcompsne, mx, hmx, hl⟩ := hdiv
  have hsubnodup : (subgraph g sn).nodes.Nodup := hnodup.filter _
  have hn : 0 < (subgraph g sn).nodes.length :=
    List.length_pos.mpr hsub
  have hsizes : ∀ a ∈ (connected_components (subgraph g sn)).map List.length,
      a ≤ (subgraph g sn).nodes.length := by
    intro a ha
    rcases List.mem_map.mp ha with ⟨c, hc, rfl⟩
    obtain ⟨hcsub, hcnodup⟩ :=
      componentsAux_subset_nodup (subgraph g sn) (subgraph g sn).nodes.length
        (subgraph g sn).nodes (fun x hx => hx) c hc
    exact (List.subperm_of_subset hcnodup hcsub).length_le
  have hmxle : mx ≤ (subgraph g sn).nodes.length := npMax_le _ mx _ hmx hsizes
  constructor
  · constructor
    · rw [hl]
      exact div_nonneg (Nat.cast_nonneg mx) (Nat.cast_nonneg _)
    · rw [hl]
      rw [div_le_one (by exact_mod_cast hn)]
      exact_mod_cast hmxle
  · intro hconn
    obtain ⟨c, hc⟩ := List.length_eq_one.mp hconn
    obtain ⟨hcov, v, rest, hlst, hcreach⟩ :=
      componentsAux_singleton (subgraph g sn) (subgraph g sn).nodes.length
        (subgraph g sn).nodes c (le_refl _) hc
    have hvmem : v ∈ (subgraph g sn).nodes := by
      rw [hlst]
      exact List.mem_cons_self v rest
    have hcsub : c ⊆ (subgraph g sn).nodes := by
      rw [hcreach]
      exact reach_subset (subgraph g sn) v hvmem
    have hcnodup : c.Nodup := by
      rw [hcreach]
      exact reach_nodup (subgraph g sn) v hvmem
    have hclen : c.length = (subgraph g sn).nodes.length :=
      Nat.le_antisymm (List.subperm_of_subset hcnodup hcsub).length_le
        (List.subperm_of_subset hsubnodup hcov).length_le
    have hmxval : mx = c.length := by
      rw [hc] at hmx
      simp [npMax] at hmx
      exact hmx.symm
    rw [hl, hmxval, hclen]
    exact div_self (Nat.cast_ne_zero.mpr (Nat.not_eq_zero_of_lt hn))

/-- Witness for claim C3: the LCC-ratio theorem applied to the string
triangle network with seed genes A, B, C, on which
compute_seed_statistics runs to completion. -/
theorem compute_seed_statistics_lcc_ratio_witness :
    (0 ≤ cssTriValue.1 ∧ cssTriValue.1 ≤ 1) ∧
      ((connected_components (subgraph strTriGraph
          [PyVal.str "A", PyVal.str "B", PyVal.str "C"])).length = 1 →
        cssTriValue.1 = 1) :=
  compute_seed_statistics_lcc_ratio strTriGraph
    [PyVal.str "A", PyVal.str "B", PyVal.str "C"] (by decide)
    cssTriValue.1 cssTriValue.2
    [PyVal.str "A", PyVal.str "B", PyVal.str "C"] rfl (by decide) rfl
